import Mathlib

/-!
Verification of the mzML extraction pipeline in
`src/pylgrams/grabMzmlFunctions.py`.

Shallow embedding conventions:
* The parsed XML tree (`lxml` element tree) is the inductive `Xml`; the text
  payload of an element is modelled as the list of its character codes
  (`List Nat`), matching the byte-oriented processing the code performs on it.
* Python `bytes` values are `List Nat` (each entry a byte value).
* Python `float` scalars parsed from attribute strings (retention times,
  precursor m/z, chromatogram intensities) are modelled as exact rationals;
  the only arithmetic the code performs on them is division by 60, which is
  exact for the values at issue.
* Values produced by `struct.unpack` are modelled by their IEEE-754 bit
  patterns (a `Nat` below `2 ^ 64` or `2 ^ 32`): the code never computes with
  them, it only moves them around, so bit-pattern identity is the right
  notion of equality.
* Fallible Python code (exceptions) is modelled with `Except PyErr`; each
  `PyErr` constructor names the raise site kind, so distinct failure modes
  stay distinguishable even when Python would use the same exception class.
* The standard-library collaborators `base64.b64decode`, `zlib.compress`,
  `zlib.decompress` and `struct.unpack` are modelled directly from their
  documented behaviour (RFC 4648, RFC 1950/1951 restricted to stored blocks
  as emitted by `zlib.compress(·, 0)`, and exact-size little-endian
  unpacking).
-/

namespace Pylgrams

/-- Error kinds raised by the pipeline.  Python collapses several of these
into `ValueError`; we keep one constructor per raise site kind so that
claims about which branch fires are expressible. -/
inductive PyErr where
  | missingMetadataError
  | unsupportedCompressionError
  | keyError
  | indexError
  | b64Error
  | zlibError
  | structError
  | zeroDivisionError
  | parseValueError
  | typeError
  | lengthError
deriving DecidableEq, Repr

instance {ε α : Type} [DecidableEq ε] [DecidableEq α] : DecidableEq (Except ε α)
  | .ok a, .ok b =>
    if h : a = b then .isTrue (by rw [h]) else .isFalse (fun he => by cases he; exact h rfl)
  | .error a, .error b =>
    if h : a = b then .isTrue (by rw [h]) else .isFalse (fun he => by cases he; exact h rfl)
  | .ok _, .error _ => .isFalse (fun he => by cases he)
  | .error _, .ok _ => .isFalse (fun he => by cases he)

/-- A parsed XML element: tag name, attributes, text payload (character
codes), children.  Namespace prefixes are dropped: every query in the source
uses the single mzML namespace. -/
inductive Xml where
  | node (tag : String) (attrs : List (String × String)) (text : Option (List Nat))
      (children : List Xml)
deriving Repr

def Xml.tag : Xml → String
  | .node t _ _ _ => t

def Xml.attrs : Xml → List (String × String)
  | .node _ a _ _ => a

def Xml.text : Xml → Option (List Nat)
  | .node _ _ s _ => s

def Xml.children : Xml → List Xml
  | .node _ _ _ c => c

/-- `element.attrib.get(k)`: first binding of attribute `k`, if any. -/
def attrGet (x : Xml) (k : String) : Option String :=
  (x.attrs.find? (fun p => p.1 = k)).map (fun p => p.2)

/-- `element.attrib[k]`: raises `KeyError` when the attribute is absent. -/
def attrD (x : Xml) (k : String) : Except PyErr String :=
  match attrGet x k with
  | some v => .ok v
  | none => .error .keyError

mutual

/-- All nodes of the subtree rooted at `x`, in document (preorder) order,
`x` itself included. -/
def allNodes : Xml → List Xml
  | .node t a s c => Xml.node t a s c :: allNodesList c

def allNodesList : List Xml → List Xml
  | [] => []
  | x :: xs => allNodes x ++ allNodesList xs

end

/-- Proper descendants of `x` in document order (the `.//` axis). -/
def descendants (x : Xml) : List Xml :=
  allNodesList x.children

def childrenTagged (t : String) (x : Xml) : List Xml :=
  x.children.filter (fun c => c.tag == t)

def hasAttrVal (x : Xml) (k v : String) : Bool :=
  attrGet x k == some v

/-- Does `x` have a `cvParam` child with the given `name` and `value`
attributes?  This is the `[d1:cvParam[@name=... and @value=...]]` filter. -/
def hasChildCvParam (name value : String) (x : Xml) : Bool :=
  x.children.any (fun c => c.tag == "cvParam" && hasAttrVal c "name" name
    && hasAttrVal c "value" value)

/-- `//*[self::d1:spectrum or self::d1:chromatogram]`, document-absolute. -/
def initNodes (doc : Xml) : List Xml :=
  (allNodes doc).filter (fun x => x.tag == "spectrum" || x.tag == "chromatogram")

/-- `//d1:cvParam[@accession="MS:1000574" or @accession="MS:1000576"]`.
Although evaluated from `init_node` in the source, the leading `//` makes the
query document-absolute in lxml, so it takes the document root. -/
def comprNodes (doc : Xml) : List Xml :=
  (allNodes doc).filter (fun x => x.tag == "cvParam"
    && (hasAttrVal x "accession" "MS:1000574" || hasAttrVal x "accession" "MS:1000576"))

/-- `//d1:cvParam[@accession="MS:1000523"]` (mz element bit width), also
document-absolute. -/
def mzPrecNodes (doc : Xml) : List Xml :=
  (allNodes doc).filter (fun x => x.tag == "cvParam" && hasAttrVal x "accession" "MS:1000523")

/-- `//d1:cvParam[@accession="MS:1000521"]` (intensity element bit width). -/
def intPrecNodes (doc : Xml) : List Xml :=
  (allNodes doc).filter (fun x => x.tag == "cvParam" && hasAttrVal x "accession" "MS:1000521")

/-- `//d1:spectrum[d1:cvParam[@name="ms level" and @value="1"]]`. -/
def ms1Nodes (doc : Xml) : List Xml :=
  (allNodes doc).filter (fun x => x.tag == "spectrum" && hasChildCvParam "ms level" "1" x)

/-- `//d1:spectrum[d1:cvParam[@name="ms level" and @value="2"]]`. -/
def ms2Nodes (doc : Xml) : List Xml :=
  (allNodes doc).filter (fun x => x.tag == "spectrum" && hasChildCvParam "ms level" "2" x)

/-- The BPC/TIC selector: level-1 spectra that also carry a `cvParam` child
with the requested name (`base peak intensity` or `total ion current`). -/
def bpcNodes (doc : Xml) (cvparamName : String) : List Xml :=
  (allNodes doc).filter (fun x => x.tag == "spectrum" && hasChildCvParam "ms level" "1" x
    && x.children.any (fun c => c.tag == "cvParam" && hasAttrVal c "name" cvparamName))

/-- `.//d1:scanList/d1:scan/d1:cvParam[@name="scan start time"]`, relative to
one spectrum node. -/
def rtNodesOf (node : Xml) : List Xml :=
  ((descendants node).filter (fun x => x.tag == "scanList")).flatMap
    (fun sl => (childrenTagged "scan" sl).flatMap
      (fun sc => (childrenTagged "cvParam" sc).filter
        (fun c => hasAttrVal c "name" "scan start time")))

/-- `.//d1:binaryDataArrayList/d1:binaryDataArray[1]/d1:binary`: for each
descendant `binaryDataArrayList`, the `binary` children of its first
`binaryDataArray` child. -/
def mzBinaryNodes (node : Xml) : List Xml :=
  ((descendants node).filter (fun x => x.tag == "binaryDataArrayList")).flatMap
    (fun bl =>
      match childrenTagged "binaryDataArray" bl with
      | [] => []
      | b :: _ => childrenTagged "binary" b)

/-- `.//d1:binaryDataArrayList/d1:binaryDataArray[2]/d1:binary`: same with the
second `binaryDataArray` child. -/
def intBinaryNodes (node : Xml) : List Xml :=
  ((descendants node).filter (fun x => x.tag == "binaryDataArrayList")).flatMap
    (fun bl =>
      match childrenTagged "binaryDataArray" bl with
      | _ :: b :: _ => childrenTagged "binary" b
      | _ => [])

/-- `//d1:precursorList/d1:precursor/d1:activation/d1:cvParam[@name="collision energy"]`.
Document-absolute (leading `//`), hence evaluated over the whole document
even when invoked from a single spectrum node. -/
def voltNodesDoc (doc : Xml) : List Xml :=
  ((allNodes doc).filter (fun x => x.tag == "precursorList")).flatMap
    (fun pl => (childrenTagged "precursor" pl).flatMap
      (fun p => (childrenTagged "activation" p).flatMap
        (fun a => (childrenTagged "cvParam" a).filter
          (fun c => hasAttrVal c "name" "collision energy"))))

/-- `//d1:precursorList/d1:precursor/d1:selectedIonList/d1:selectedIon/d1:cvParam[@name="selected ion m/z"]`,
document-absolute. -/
def premzNodesDoc (doc : Xml) : List Xml :=
  ((allNodes doc).filter (fun x => x.tag == "precursorList")).flatMap
    (fun pl => (childrenTagged "precursor" pl).flatMap
      (fun p => (childrenTagged "selectedIonList" p).flatMap
        (fun sil => (childrenTagged "selectedIon" sil).flatMap
          (fun si => (childrenTagged "cvParam" si).filter
            (fun c => hasAttrVal c "name" "selected ion m/z")))))

/-! ## Scalar parsing (`float(...)`, `int(...)`, `"-".split` prefix) -/

def strBytes (s : String) : List Nat :=
  s.data.map Char.toNat

/-- Leading decimal digits of a character-code list, and the remainder. -/
def takeDigits : List Nat → List Nat × List Nat
  | [] => ([], [])
  | c :: cs =>
    if 48 ≤ c ∧ c ≤ 57 then
      let p := takeDigits cs
      ((c - 48) :: p.1, p.2)
    else ([], c :: cs)

def digitsVal (ds : List Nat) : Nat :=
  ds.foldl (fun a d => a * 10 + d) 0

def signSplit : List Nat → Bool × List Nat
  | 45 :: rest => (true, rest)
  | 43 :: rest => (false, rest)
  | cs => (false, cs)

/-- Python `float(s)` on the decimal forms the pipeline meets:
`[sign] digits [. digits]` with at least one digit.  The result is the exact
rational value; `ValueError` otherwise. -/
def pyFloatParse (s : String) : Except PyErr ℚ :=
  let p := signSplit (strBytes s)
  let q := takeDigits p.2
  match q.2 with
  | [] =>
    if q.1 = [] then .error .parseValueError
    else .ok (mkRat (if p.1 then -(digitsVal q.1 : Int) else (digitsVal q.1 : Int)) 1)
  | 46 :: rest =>
    let r := takeDigits rest
    if r.2 = [] ∧ (q.1 ≠ [] ∨ r.1 ≠ []) then
      let n : Nat := digitsVal q.1 * 10 ^ r.1.length + digitsVal r.1
      .ok (mkRat (if p.1 then -(n : Int) else (n : Int)) (10 ^ r.1.length))
    else .error .parseValueError
  | _ => .error .parseValueError

/-- Python `int(s)`: `[sign] digits`, nothing else; `ValueError` otherwise. -/
def pyIntParse (s : String) : Except PyErr Int :=
  let p := signSplit (strBytes s)
  let q := takeDigits p.2
  if q.2 = [] ∧ q.1 ≠ [] then
    .ok (if p.1 then -(digitsVal q.1 : Int) else (digitsVal q.1 : Int))
  else .error .parseValueError

/-- `s.split("-")[0]`: the prefix of `s` before the first hyphen. -/
def splitDashHead (s : String) : String :=
  String.mk (s.data.takeWhile (fun c => c.toNat ≠ 45))

/-- Python float division by 60 (`val / 60`), exact on rationals.  Stated via
`mkRat` so that it evaluates inside the kernel; `div60_eq` identifies it with
rational division. -/
def div60 (q : ℚ) : ℚ :=
  mkRat q.num (q.den * 60)

/-- Python `int(b / 8)` for an integer `b`: `b / 8` is an exact binary float
for all widths at issue and `int` truncates toward zero. -/
def pyIntDiv8 (b : Int) : Int :=
  b.tdiv 8

/-! ## `base64.b64decode` / `base64.b64encode`

Modelled from the standard alphabet of RFC 4648 on canonical input; the text
is a list of character codes, the output a list of byte values. -/

def b64EncChar (n : Nat) : Nat :=
  if n < 26 then 65 + n
  else if n < 52 then 71 + n
  else if n < 62 then n - 4
  else if n = 62 then 43
  else 47

def b64DecChar (c : Nat) : Except PyErr Nat :=
  if 65 ≤ c ∧ c ≤ 90 then .ok (c - 65)
  else if 97 ≤ c ∧ c ≤ 122 then .ok (c - 71)
  else if 48 ≤ c ∧ c ≤ 57 then .ok (c + 4)
  else if c = 43 then .ok 62
  else if c = 47 then .ok 63
  else .error .b64Error

def b64encode : List Nat → List Nat
  | a :: b :: c :: rest =>
    b64EncChar (a / 4) :: b64EncChar (a % 4 * 16 + b / 16) ::
      b64EncChar (b % 16 * 4 + c / 64) :: b64EncChar (c % 64) :: b64encode rest
  | [a] => [b64EncChar (a / 4), b64EncChar (a % 4 * 16), 61, 61]
  | [a, b] => [b64EncChar (a / 4), b64EncChar (a % 4 * 16 + b / 16), b64EncChar (b % 16 * 4), 61]
  | [] => []

def b64decode : List Nat → Except PyErr (List Nat)
  | [] => .ok []
  | c1 :: c2 :: c3 :: c4 :: rest =>
    if c3 = 61 then
      if c4 = 61 ∧ rest = [] then do
        let d1 ← b64DecChar c1
        let d2 ← b64DecChar c2
        .ok [d1 * 4 + d2 / 16]
      else .error .b64Error
    else if c4 = 61 then
      if rest = [] then do
        let d1 ← b64DecChar c1
        let d2 ← b64DecChar c2
        let d3 ← b64DecChar c3
        .ok [d1 * 4 + d2 / 16, d2 % 16 * 16 + d3 / 4]
      else .error .b64Error
    else do
      let d1 ← b64DecChar c1
      let d2 ← b64DecChar c2
      let d3 ← b64DecChar c3
      let d4 ← b64DecChar c4
      let tail ← b64decode rest
      .ok ((d1 * 4 + d2 / 16) :: (d2 % 16 * 16 + d3 / 4) :: (d3 % 4 * 64 + d4) :: tail)
  | _ => .error .b64Error

/-! ## `zlib.compress` / `zlib.decompress`

Modelled from RFC 1950/1951 restricted to stored (uncompressed) deflate
blocks, exactly the streams `zlib.compress(data, 0)` emits; `zlibDecompress`
checks the zlib header, block structure and Adler-32 trailer. -/

def adler32 (data : List Nat) : Nat :=
  let p := data.foldl (fun (ab : Nat × Nat) x =>
    let a := (ab.1 + x) % 65521
    (a, (ab.2 + a) % 65521)) (1, 0)
  p.2 * 65536 + p.1

def u16le (n : Nat) : List Nat :=
  [n % 256, n / 256 % 256]

def u32be (n : Nat) : List Nat :=
  [n / 16777216 % 256, n / 65536 % 256, n / 256 % 256, n % 256]

/-- Stored-block emitter with structural fuel (one unit per emitted non-final
block; `deflateStored` passes ample fuel, so exhaustion is unreachable). -/
def deflateStoredAux : Nat → List Nat → List Nat
  | 0, data => 1 :: (u16le data.length ++ (u16le (65535 - data.length) ++ data))
  | fuel + 1, data =>
    if data.length ≤ 65535 then
      1 :: (u16le data.length ++ (u16le (65535 - data.length) ++ data))
    else
      0 :: (u16le 65535 ++ (u16le 0 ++
        (data.take 65535 ++ deflateStoredAux fuel (data.drop 65535))))

def deflateStored (data : List Nat) : List Nat :=
  deflateStoredAux data.length data

def zlibCompress (data : List Nat) : List Nat :=
  120 :: 1 :: (deflateStored data ++ u32be (adler32 data))

/-- Stored-block inflater with structural fuel (one unit per block; every
block consumes at least five input bytes, so the fuel `inflateStored` passes
never runs out before the input does). -/
def inflateStoredAux : Nat → List Nat → Except PyErr (List Nat × List Nat)
  | 0, _ => .error .zlibError
  | _ + 1, [] => .error .zlibError
  | fuel + 1, b :: r =>
    if b / 2 % 4 = 0 then
      match r with
      | l0 :: l1 :: n0 :: n1 :: rest =>
        let len := l0 + 256 * l1
        if n0 + 256 * n1 = 65535 - len ∧ len ≤ rest.length then
          if b % 2 = 1 then .ok (rest.take len, rest.drop len)
          else
            match inflateStoredAux fuel (rest.drop len) with
            | .ok p => .ok (rest.take len ++ p.1, p.2)
            | .error e => .error e
        else .error .zlibError
      | _ => .error .zlibError
    else .error .zlibError

/-- Inflate a sequence of stored deflate blocks; returns the payload and the
bytes after the final block. -/
def inflateStored (l : List Nat) : Except PyErr (List Nat × List Nat) :=
  inflateStoredAux (l.length + 1) l

def zlibDecompress (data : List Nat) : Except PyErr (List Nat) :=
  match data with
  | cmf :: flg :: rest =>
    if cmf % 16 = 8 ∧ cmf / 16 ≤ 7 ∧ (cmf * 256 + flg) % 31 = 0 ∧ flg / 32 % 2 = 0 then
      match inflateStored rest with
      | .ok p => if p.2 = u32be (adler32 p.1) then .ok p.1 else .error .zlibError
      | .error e => .error e
    else .error .zlibError
  | _ => .error .zlibError

/-! ## `struct.unpack` and little-endian chunking -/

/-- Bytes of `n` in little-endian order, `k` bytes wide. -/
def toLE : Nat → Nat → List Nat
  | 0, _ => []
  | k + 1, n => n % 256 :: toLE k (n / 256)

/-- The value of a little-endian byte list (an IEEE-754 bit pattern). -/
def fromLE : List Nat → Nat
  | [] => 0
  | b :: bs => b + 256 * fromLE bs

/-- Chunking with structural fuel (one unit per chunk; `chunksOf` passes the
list length, which suffices whenever the width is positive). -/
def chunksOfAux (k : Nat) : Nat → List Nat → List (List Nat)
  | _, [] => []
  | 0, _ :: _ => []
  | fuel + 1, a :: l => ((a :: l).take k) :: chunksOfAux k fuel ((a :: l).drop k)

def chunksOf (k : Nat) (l : List Nat) : List (List Nat) :=
  chunksOfAux k l.length l

/-- `struct.unpack(fmt, data)` for a homogeneous native little-endian format
of `count` items of `itemBytes` bytes: requires the buffer length to equal
`calcsize(fmt) = itemBytes * count` exactly, else raises `struct.error`. -/
def structUnpack (itemBytes count : Nat) (data : List Nat) : Except PyErr (List Nat) :=
  if data.length = itemBytes * count then .ok ((chunksOf itemBytes data).map fromLE)
  else .error .structError

/-! ## The pipeline functions of `grabMzmlFunctions.py` -/

/-- The `file_metadata` dict built by `grabMzmlEncodingData`. -/
structure FileMetadata where
  compression : String
  mz_precision : Int
  int_precision : Int
  endi_enc : String
deriving DecidableEq, Repr

/-- The compression-name dictionary of `grabMzmlEncodingData`; a missing key
raises `KeyError`. -/
def comprMap (compr_type : String) : Except PyErr String :=
  if compr_type = "zlib" then .ok "gzip"
  else if compr_type = "zlib compression" then .ok "gzip"
  else if compr_type = "no compression" then .ok "none"
  else if compr_type = "none" then .ok "none"
  else .error PyErr.keyError

/-- `grabMzmlEncodingData(xml_data)`, with Python exception propagation spelled
as explicit matches.  The `math.isnan` guards of the source are unreachable
(`int(...)` raises `ValueError` instead of producing `NaN`), so they are not
reflected in the rational model; the final `int(...)` conversions are the
identity on the already-integral precisions. -/
def grabMzmlEncodingData (xml_data : Xml) : Except PyErr FileMetadata :=
  match initNodes xml_data with
  | [] => .error .missingMetadataError
  | _ :: _ =>
    match comprNodes xml_data with
    | [] => .error PyErr.indexError
    | compr_node :: _ =>
      match attrD compr_node "name" with
      | .error e => .error e
      | .ok compr_type =>
        match comprMap compr_type with
        | .error e => .error e
        | .ok compr =>
          match mzPrecNodes xml_data with
          | [] => .error PyErr.indexError
          | mz_bit_node :: _ =>
            match attrD mz_bit_node "name" with
            | .error e => .error e
            | .ok mz_bit_type =>
              match pyIntParse (splitDashHead mz_bit_type) with
              | .error e => .error e
              | .ok mz_bits =>
                match intPrecNodes xml_data with
                | [] =>
                  .ok { compression := compr, mz_precision := pyIntDiv8 mz_bits,
                        int_precision := pyIntDiv8 mz_bits, endi_enc := "little" }
                | int_bit_node :: _ =>
                  match attrD int_bit_node "name" with
                  | .error e => .error e
                  | .ok int_bit_type =>
                    match pyIntParse (splitDashHead int_bit_type) with
                    | .error e => .error e
                    | .ok int_bits =>
                      .ok { compression := compr, mz_precision := pyIntDiv8 mz_bits,
                            int_precision := pyIntDiv8 int_bits, endi_enc := "little" }

/-- The body of the decode loop of `grabSpectraMz` for one binary node text:
base64-decode, decompress according to the metadata, then
`struct.unpack('{n}d', ...)` with `n = len // mz_precision` — the format
character is hard-coded to `d` (8-byte doubles). -/
def decodeOneMz (m : FileMetadata) (text : Option (List Nat)) : Except PyErr (List Nat) :=
  match text with
  | none => .ok []
  | some s =>
    if s = [] then .ok []
    else do
      let raw ← b64decode s
      let decomp ←
        if m.compression = "none" then .ok raw
        else if m.compression = "zlib" then zlibDecompress raw
        else if m.compression = "gzip" then zlibDecompress raw
        else .error PyErr.unsupportedCompressionError
      if m.mz_precision = 0 then .error PyErr.zeroDivisionError
      else if m.mz_precision < 0 then .error PyErr.structError
      else structUnpack 8 (decomp.length / m.mz_precision.toNat) decomp

/-- The body of the decode loop of `grabSpectraInt` for one binary node text:
identical to the mz loop except that `n = len // int_precision` and the
format character is hard-coded to `f` (4-byte single-precision floats). -/
def decodeOneInt (m : FileMetadata) (text : Option (List Nat)) : Except PyErr (List Nat) :=
  match text with
  | none => .ok []
  | some s =>
    if s = [] then .ok []
    else do
      let raw ← b64decode s
      let decomp ←
        if m.compression = "none" then .ok raw
        else if m.compression = "zlib" then zlibDecompress raw
        else if m.compression = "gzip" then zlibDecompress raw
        else .error PyErr.unsupportedCompressionError
      if m.int_precision = 0 then .error PyErr.zeroDivisionError
      else if m.int_precision < 0 then .error PyErr.structError
      else structUnpack 4 (decomp.length / m.int_precision.toNat) decomp

/-- `grabSpectraMz(xml_nodes, file_metadata)`: one decoded array per `binary`
node found under the nodes (flattened), in order. -/
def grabSpectraMz (xml_nodes : List Xml) (file_metadata : FileMetadata) :
    Except PyErr (List (List Nat)) :=
  ((xml_nodes.flatMap mzBinaryNodes).map Xml.text).mapM (decodeOneMz file_metadata)

/-- `grabSpectraInt(xml_nodes, file_metadata)`. -/
def grabSpectraInt (xml_nodes : List Xml) (file_metadata : FileMetadata) :
    Except PyErr (List (List Nat)) :=
  ((xml_nodes.flatMap intBinaryNodes).map Xml.text).mapM (decodeOneInt file_metadata)

/-- `grabSpectraRt(xml_nodes)`: scan start times of all matched spectra; the
batch is divided by 60 exactly when no node's `unitName` is `minute`. -/
def grabSpectraRt (xml_nodes : List Xml) : Except PyErr (List ℚ) := do
  let rt_nodes := xml_nodes.flatMap rtNodesOf
  let rt_units := rt_nodes.map (fun n => attrGet n "unitName")
  let rt_vals ← rt_nodes.mapM (fun n => do pyFloatParse (← attrD n "value"))
  if rt_units.contains (some "minute") = false then .ok (rt_vals.map div60)
  else .ok rt_vals

/-- `grabSpectraVoltage(xml_nodes)`: the per-node query is document-absolute,
so each node contributes every matching `cvParam` of the whole document; if
no node matched at all, one `None` per input node is returned. -/
def grabSpectraVoltage (doc : Xml) (xml_nodes : List Xml) :
    Except PyErr (List (Option Int)) :=
  let volt_nodes := xml_nodes.flatMap (fun _ => voltNodesDoc doc)
  match volt_nodes with
  | [] => .ok (List.replicate xml_nodes.length none)
  | _ :: _ => do
    let vals ← volt_nodes.mapM (fun n =>
      match attrGet n "value" with
      | none => .error PyErr.typeError
      | some v => pyIntParse v)
    .ok (vals.map some)

/-- `grabSpectraPremz(xml_nodes)`: document-absolute query, like the voltage
extractor. -/
def grabSpectraPremz (doc : Xml) (xml_nodes : List Xml) : Except PyErr (List ℚ) :=
  (xml_nodes.flatMap (fun _ => premzNodesDoc doc)).mapM (fun n =>
    match attrGet n "value" with
    | none => .error PyErr.typeError
    | some v => pyFloatParse v)

/-! ## numpy / pandas collaborators and table assembly -/

/-- A pandas data frame: ordered named columns of equal length. -/
inductive PyVal where
  | f (q : ℚ)
  | bits (n : Nat)
  | i (n : Int)
  | none
deriving DecidableEq, Repr

def pyValOfVolt : Option Int → PyVal
  | Option.none => PyVal.none
  | some n => PyVal.i n

/-- `np.repeat(vals, reps)`: requires the two lists to have equal length. -/
def npRepeat (vals : List ℚ) (reps : List Nat) : Except PyErr (List ℚ) :=
  if vals.length = reps.length then
    .ok ((vals.zip reps).flatMap (fun vr => List.replicate vr.2 vr.1))
  else .error .lengthError

/-- `np.concatenate(ls)`: raises on an empty list of arrays. -/
def npConcatenate {α : Type} (ls : List (List α)) : Except PyErr (List α) :=
  match ls with
  | [] => .error .lengthError
  | _ :: _ => .ok ls.flatten

/-- `pd.DataFrame(dict)`: all columns must have the same length. -/
def mkDataFrame (cols : List (String × List PyVal)) :
    Except PyErr (List (String × List PyVal)) :=
  if (cols.map (fun c => c.2.length)).all
      (fun n => n = ((cols.map (fun c => c.2.length)).headD 0)) then .ok cols
  else .error .lengthError

/-- Number of rows of a data frame. -/
def nrows (df : List (String × List PyVal)) : Nat :=
  (df.map (fun c => c.2.length)).headD 0

/-- Column of a data frame by name. -/
def colOf (df : List (String × List PyVal)) (name : String) : List PyVal :=
  ((df.find? (fun c => c.1 = name)).map (fun c => c.2)).getD []

/-- `grabMzmlMS1(xml_data, file_metadata)`. -/
def grabMzmlMS1 (xml_data : Xml) (file_metadata : FileMetadata) :
    Except PyErr (List (String × List PyVal)) :=
  match ms1Nodes xml_data with
  | [] => .ok [("rt", []), ("mz", []), ("int", [])]
  | n :: ns => do
    let ms1_nodes := n :: ns
    let rt_vals ← grabSpectraRt ms1_nodes
    let mz_vals ← grabSpectraMz ms1_nodes file_metadata
    let int_vals ← grabSpectraInt ms1_nodes file_metadata
    let rt_col ← npRepeat rt_vals (mz_vals.map List.length)
    let mz_col ← npConcatenate mz_vals
    let int_col ← npConcatenate int_vals
    mkDataFrame [("rt", rt_col.map PyVal.f), ("mz", mz_col.map PyVal.bits),
      ("int", int_col.map PyVal.bits)]

/-- `grabMzmlMS2(xml_data, file_metadata)`.  The scalar columns are built by
`np.concatenate([[v] * len(mz) for v, mz in zip(vals, mz_vals)])`, hence with
`zip` truncation semantics. -/
def grabMzmlMS2 (xml_data : Xml) (file_metadata : FileMetadata) :
    Except PyErr (List (String × List PyVal)) :=
  match ms2Nodes xml_data with
  | [] => .ok [("rt", []), ("premz", []), ("fragmz", []), ("int", []), ("voltage", [])]
  | n :: ns => do
    let ms2_nodes := n :: ns
    let rt_vals ← grabSpectraRt ms2_nodes
    let premz_vals ← grabSpectraPremz xml_data ms2_nodes
    let voltage ← grabSpectraVoltage xml_data ms2_nodes
    let mz_vals ← grabSpectraMz ms2_nodes file_metadata
    let int_vals ← grabSpectraInt ms2_nodes file_metadata
    let rt_col ← npConcatenate ((rt_vals.zip mz_vals).map
      (fun p => List.replicate p.2.length p.1))
    let premz_col ← npConcatenate ((premz_vals.zip mz_vals).map
      (fun p => List.replicate p.2.length p.1))
    let fragmz_col ← npConcatenate mz_vals
    let int_col ← npConcatenate int_vals
    let volt_col ← npConcatenate ((voltage.zip mz_vals).map
      (fun p => List.replicate p.2.length p.1))
    mkDataFrame [("rt", rt_col.map PyVal.f), ("premz", premz_col.map PyVal.f),
      ("fragmz", fragmz_col.map PyVal.bits), ("int", int_col.map PyVal.bits),
      ("voltage", volt_col.map pyValOfVolt)]

/-- `grabMzmlBPC(xml_data, TIC)`. -/
def grabMzmlBPC (xml_data : Xml) (TIC : Bool) : Except PyErr (List (String × List PyVal)) := do
  let cvparam_name := if TIC = true then "total ion current" else "base peak intensity"
  let ms1_nodes := bpcNodes xml_data cvparam_name
  let rt_vals ← grabSpectraRt ms1_nodes
  let int_nodes := ms1_nodes.flatMap (fun node =>
    (childrenTagged "cvParam" node).filter (fun c => hasAttrVal c "name" cvparam_name))
  let int_vals ← int_nodes.mapM (fun n => do pyFloatParse (← attrD n "value"))
  mkDataFrame [("rt", rt_vals.map PyVal.f), ("int", int_vals.map PyVal.f)]

/-! ## Concrete example documents (used by witnesses and counterexamples) -/

/-- A level-`level` spectrum with one scan-start-time `cvParam` and two
binary data arrays (mz text, then intensity text). -/
def spectrumNode (level rtVal unit : String) (mzText intText : List Nat) : Xml :=
  .node "spectrum" [] none [
    .node "cvParam" [("name", "ms level"), ("value", level)] none [],
    .node "scanList" [] none [
      .node "scan" [] none [
        .node "cvParam" [("name", "scan start time"), ("value", rtVal),
          ("unitName", unit)] none []]],
    .node "binaryDataArrayList" [] none [
      .node "binaryDataArray" [] none [.node "binary" [] (some mzText) []],
      .node "binaryDataArray" [] none [.node "binary" [] (some intText) []]]]

/-- Two MS1 spectra: retention times 1.0 and 2.0 minutes, mz-array lengths 3
and 1 (values 1,2,3 and 4; intensities 7,8,9 and 10). -/
def c4doc : Xml :=
  .node "mzML" [] none [
    spectrumNode "1" "1.0" "minute"
      (b64encode (toLE 8 1 ++ (toLE 8 2 ++ toLE 8 3)))
      (b64encode (toLE 4 7 ++ (toLE 4 8 ++ toLE 4 9))),
    spectrumNode "1" "2.0" "minute" (b64encode (toLE 8 4)) (b64encode (toLE 4 10))]

/-- Same two spectra plus a third with zero peaks (empty binary text). -/
def c4docZ : Xml :=
  .node "mzML" [] none [
    spectrumNode "1" "1.0" "minute"
      (b64encode (toLE 8 1 ++ (toLE 8 2 ++ toLE 8 3)))
      (b64encode (toLE 4 7 ++ (toLE 4 8 ++ toLE 4 9))),
    spectrumNode "1" "2.0" "minute" (b64encode (toLE 8 4)) (b64encode (toLE 4 10)),
    spectrumNode "1" "9.0" "minute" [] []]

def c4meta : FileMetadata := ⟨"none", 8, 4, "little"⟩

/-- One spectrum whose mz blob holds one 8-byte value but whose intensity
blob holds eight bytes, i.e. two 4-byte values. -/
def c5spectrum : Xml :=
  spectrumNode "1" "1.0" "minute" (b64encode (toLE 8 5)) (b64encode (toLE 8 9))

/-- A document with no spectra at all. -/
def c6doc : Xml :=
  .node "mzML" [] none []

/-- One MS1 spectrum whose scan start time is 120 with unit `second`. -/
def c7secSpectrum : Xml :=
  spectrumNode "1" "120" "second" [] []

/-- One MS1 spectrum whose scan start time is 3.0 with unit `minute`. -/
def c7minSpectrum : Xml :=
  spectrumNode "1" "3.0" "minute" [] []

/-- A spectrum scope declaring no compression, 64-bit mz and 32-bit
intensity. -/
def c8doc : Xml :=
  .node "mzML" [] none [
    .node "spectrum" [] none [
      .node "cvParam" [("accession", "MS:1000574"), ("name", "no compression")] none [],
      .node "cvParam" [("accession", "MS:1000523"), ("name", "64-bit float")] none [],
      .node "cvParam" [("accession", "MS:1000521"), ("name", "32-bit float")] none []]]

/-- Like `c8doc` but with the intensity bit-width `cvParam` absent. -/
def c8docDefault : Xml :=
  .node "mzML" [] none [
    .node "spectrum" [] none [
      .node "cvParam" [("accession", "MS:1000574"), ("name", "no compression")] none [],
      .node "cvParam" [("accession", "MS:1000523"), ("name", "64-bit float")] none []]]

/-- Like `c8doc` but with a compression label outside the recognized set. -/
def c9badDoc : Xml :=
  .node "mzML" [] none [
    .node "spectrum" [] none [
      .node "cvParam" [("accession", "MS:1000574"), ("name", "lzma compression")] none [],
      .node "cvParam" [("accession", "MS:1000523"), ("name", "64-bit float")] none []]]

/-- An MS2 spectrum with one precursor carrying a selected-ion m/z and a
collision energy. -/
def ms2SpectrumNode (premzVal voltVal : String) : Xml :=
  .node "spectrum" [] none [
    .node "cvParam" [("name", "ms level"), ("value", "2")] none [],
    .node "precursorList" [] none [
      .node "precursor" [] none [
        .node "selectedIonList" [] none [
          .node "selectedIon" [] none [
            .node "cvParam" [("name", "selected ion m/z"), ("value", premzVal)] none []]],
        .node "activation" [] none [
          .node "cvParam" [("name", "collision energy"), ("value", voltVal)] none []]]]]

/-- Two MS2 spectra, so the document holds two matching precursor `cvParam`
nodes for each of the m/z and collision-energy queries. -/
def c10doc : Xml :=
  .node "mzML" [] none [
    ms2SpectrumNode "150" "35",
    ms2SpectrumNode "250" "40"]

/-! ## Lemmas about the collaborator models -/

@[simp]
theorem bind_ok_eq {ε α β : Type} (a : α) (f : α → Except ε β) :
    (Except.ok a : Except ε α) >>= f = f a := rfl

@[simp]
theorem bind_error_eq {ε α β : Type} (e : ε) (f : α → Except ε β) :
    (Except.error e : Except ε α) >>= f = Except.error e := rfl

theorem b64DecChar_encChar : ∀ n < 64, b64DecChar (b64EncChar n) = .ok n := by decide

theorem b64EncChar_ne_61 : ∀ n < 64, b64EncChar n ≠ 61 := by decide

theorem b64encode_ne_nil {l : List Nat} (h : l ≠ []) : b64encode l ≠ [] := by
  match l with
  | [] => exact absurd rfl h
  | [a] => simp [b64encode]
  | [a, b] => simp [b64encode]
  | a :: b :: c :: rest => simp [b64encode]

theorem b64decode_encode : ∀ l : List Nat, (∀ b ∈ l, b < 256) →
    b64decode (b64encode l) = .ok l := by
  intro l
  induction l using b64encode.induct with
  | case4 => intro _; rfl
  | case2 a =>
    intro hb
    have ha : a < 256 := hb a (by simp)
    have h1 : a / 4 < 64 := by omega
    have h2 : a % 4 * 16 < 64 := by omega
    simp [b64encode, b64decode, b64EncChar_ne_61 _ h1, b64EncChar_ne_61 _ h2,
      b64DecChar_encChar _ h1, b64DecChar_encChar _ h2]
    omega
  | case3 a b =>
    intro hb
    have ha : a < 256 := hb a (by simp)
    have hb2 : b < 256 := hb b (by simp)
    have h1 : a / 4 < 64 := by omega
    have h2 : a % 4 * 16 + b / 16 < 64 := by omega
    have h3 : b % 16 * 4 < 64 := by omega
    simp [b64encode, b64decode, b64EncChar_ne_61 _ h1, b64EncChar_ne_61 _ h2,
      b64EncChar_ne_61 _ h3, b64DecChar_encChar _ h1, b64DecChar_encChar _ h2,
      b64DecChar_encChar _ h3]
    omega
  | case1 a b c rest ih =>
    intro hb
    have ha : a < 256 := hb a (by simp)
    have hbb : b < 256 := hb b (by simp)
    have hc : c < 256 := hb c (by simp)
    have h1 : a / 4 < 64 := by omega
    have h2 : a % 4 * 16 + b / 16 < 64 := by omega
    have h3 : b % 16 * 4 + c / 64 < 64 := by omega
    have h4 : c % 64 < 64 := by omega
    have ihr : b64decode (b64encode rest) = .ok rest :=
      ih (fun x hx => hb x (by simp [hx]))
    simp [b64encode, b64decode, b64EncChar_ne_61 _ h3, b64EncChar_ne_61 _ h4,
      b64DecChar_encChar _ h1, b64DecChar_encChar _ h2,
      b64DecChar_encChar _ h3, b64DecChar_encChar _ h4, ihr]
    refine ⟨by omega, by omega, by omega⟩

theorem deflateStoredAux_length_lt : ∀ (fuel : Nat) (d : List Nat),
    d.length < (deflateStoredAux fuel d).length := by
  intro fuel
  induction fuel with
  | zero => intro d; simp [deflateStoredAux, u16le]; omega
  | succ fuel ih =>
    intro d
    rw [deflateStoredAux]
    by_cases hle : d.length ≤ 65535
    · rw [if_pos hle]; simp [u16le]; omega
    · rw [if_neg hle]
      have := ih (d.drop 65535)
      simp only [List.length_drop] at this
      simp [u16le]
      omega

theorem inflate_final (fi : Nat) (d t : List Nat) (h : d.length ≤ 65535) :
    inflateStoredAux (fi + 1)
      ((1 :: (u16le d.length ++ (u16le (65535 - d.length) ++ d))) ++ t) = .ok (d, t) := by
  have e1 : d.length % 256 + 256 * (d.length / 256 % 256) = d.length := by omega
  have hl : (1 :: (u16le d.length ++ (u16le (65535 - d.length) ++ d))) ++ t
      = 1 :: (d.length % 256) :: (d.length / 256 % 256) :: ((65535 - d.length) % 256) ::
        ((65535 - d.length) / 256 % 256) :: (d ++ t) := by
    simp [u16le]
  rw [hl]
  simp only [inflateStoredAux]
  rw [if_pos (by norm_num)]
  rw [e1]
  rw [if_pos ⟨by omega, by simp⟩]
  rw [if_pos (by norm_num)]
  rw [List.take_left' rfl, List.drop_left' rfl]

theorem inflate_deflate : ∀ (fd fi : Nat) (d t : List Nat),
    d.length ≤ 65535 * fd + 65535 → fd < fi →
    inflateStoredAux fi (deflateStoredAux fd d ++ t) = .ok (d, t) := by
  intro fd
  induction fd with
  | zero =>
    intro fi d t hlen hfi
    obtain ⟨fi2, rfl⟩ : ∃ k, fi = k + 1 := ⟨fi - 1, by omega⟩
    rw [show deflateStoredAux 0 d
      = 1 :: (u16le d.length ++ (u16le (65535 - d.length) ++ d)) from rfl]
    exact inflate_final fi2 d t (by omega)
  | succ fd ih =>
    intro fi d t hlen hfi
    obtain ⟨fi2, rfl⟩ : ∃ k, fi = k + 1 := ⟨fi - 1, by omega⟩
    by_cases hle : d.length ≤ 65535
    · rw [show deflateStoredAux (fd + 1) d
        = 1 :: (u16le d.length ++ (u16le (65535 - d.length) ++ d)) from by
          rw [deflateStoredAux, if_pos hle]]
      exact inflate_final fi2 d t hle
    · rw [show deflateStoredAux (fd + 1) d
        = 0 :: (u16le 65535 ++ (u16le 0 ++ (d.take 65535 ++ deflateStoredAux fd (d.drop 65535))))
        from by rw [deflateStoredAux, if_neg hle]]
      have htake : (d.take 65535).length = 65535 := by simp; omega
      have hl : (0 :: (u16le 65535 ++ (u16le 0 ++
            (d.take 65535 ++ deflateStoredAux fd (d.drop 65535))))) ++ t
          = 0 :: 255 :: 255 :: 0 :: 0 ::
            (d.take 65535 ++ (deflateStoredAux fd (d.drop 65535) ++ t)) := by
        simp [u16le]
      rw [hl]
      simp only [inflateStoredAux]
      rw [if_pos (by norm_num)]
      rw [if_pos (And.intro (by norm_num) (by simp [List.length_append, htake]))]
      have h255 : (255 : Nat) + 256 * 255 = 65535 := by norm_num
      rw [h255]
      rw [if_neg (by norm_num)]
      rw [List.take_left' htake, List.drop_left' htake]
      rw [ih fi2 (d.drop 65535) t (by simp; omega) (by omega)]
      simp

theorem zlib_roundtrip (d : List Nat) : zlibDecompress (zlibCompress d) = .ok d := by
  rw [zlibCompress, zlibDecompress]
  rw [if_pos (by norm_num)]
  rw [show inflateStored (deflateStored d ++ u32be (adler32 d))
      = .ok (d, u32be (adler32 d)) from by
    rw [inflateStored]
    apply inflate_deflate d.length _ d (u32be (adler32 d)) (by omega)
    have h1 := deflateStoredAux_length_lt d.length d
    rw [deflateStored]
    simp
    omega]
  simp

theorem u32be_lt_256 {n : Nat} : ∀ b ∈ u32be n, b < 256 := by
  intro b hb
  simp [u32be] at hb
  rcases hb with rfl | rfl | rfl | rfl <;> omega

theorem deflateStoredAux_lt_256 : ∀ (fuel : Nat) (d : List Nat),
    (∀ x ∈ d, x < 256) → ∀ b ∈ deflateStoredAux fuel d, b < 256 := by
  intro fuel
  induction fuel with
  | zero =>
    intro d hd b hb
    simp [deflateStoredAux, u16le] at hb
    rcases hb with rfl | rfl | rfl | rfl | rfl | hb
    any_goals omega
    exact hd b hb
  | succ fuel ih =>
    intro d hd b hb
    rw [deflateStoredAux] at hb
    by_cases hle : d.length ≤ 65535
    · rw [if_pos hle] at hb
      simp [u16le] at hb
      rcases hb with rfl | rfl | rfl | rfl | rfl | hb
      any_goals omega
      exact hd b hb
    · rw [if_neg hle] at hb
      simp [u16le] at hb
      rcases hb with rfl | rfl | rfl | hb | hb
      any_goals omega
      · exact hd b (List.mem_of_mem_take hb)
      · exact ih (d.drop 65535) (fun x hx => hd x (List.mem_of_mem_drop hx)) b hb

theorem zlibCompress_lt_256 (d : List Nat) (hd : ∀ x ∈ d, x < 256) :
    ∀ b ∈ zlibCompress d, b < 256 := by
  intro b hb
  simp only [zlibCompress, List.mem_cons, List.mem_append] at hb
  rcases hb with h | h | h | h
  · omega
  · omega
  · exact deflateStoredAux_lt_256 d.length d hd b h
  · exact u32be_lt_256 b h

theorem zlibCompress_ne_nil (d : List Nat) : zlibCompress d ≠ [] := by
  simp [zlibCompress]

theorem toLE_length (k : Nat) : ∀ n, (toLE k n).length = k := by
  induction k with
  | zero => intro n; rfl
  | succ k ih => intro n; simp [toLE, ih]

theorem toLE_lt_256 (k : Nat) : ∀ n, ∀ b ∈ toLE k n, b < 256 := by
  induction k with
  | zero => intro n b hb; simp [toLE] at hb
  | succ k ih =>
    intro n b hb
    simp only [toLE, List.mem_cons] at hb
    rcases hb with rfl | hb
    · omega
    · exact ih (n / 256) b hb

theorem fromLE_toLE (k : Nat) : ∀ n, n < 256 ^ k → fromLE (toLE k n) = n := by
  induction k with
  | zero => intro n h; simp [pow_zero] at h; simp [toLE, fromLE, h]
  | succ k ih =>
    intro n h
    have hdiv : n / 256 < 256 ^ k := by
      apply Nat.div_lt_of_lt_mul
      rw [mul_comm]
      rw [pow_succ] at h
      exact h
    simp only [toLE, fromLE, ih (n / 256) hdiv]
    omega

theorem flatMap_toLE_length (k : Nat) (xs : List Nat) :
    (xs.flatMap (toLE k)).length = k * xs.length := by
  induction xs with
  | nil => simp
  | cons x xs ih => simp [ih, toLE_length]; ring

theorem flatMap_toLE_lt_256 (k : Nat) (xs : List Nat) :
    ∀ b ∈ xs.flatMap (toLE k), b < 256 := by
  intro b hb
  simp only [List.mem_flatMap] at hb
  obtain ⟨x, _, hbx⟩ := hb
  exact toLE_lt_256 k x b hbx

theorem chunksOfAux_flatMap (k : Nat) (hk : 0 < k) :
    ∀ (xs : List Nat) (fuel : Nat), xs.length ≤ fuel →
    chunksOfAux k fuel (xs.flatMap (toLE k)) = xs.map (toLE k) := by
  intro xs
  induction xs with
  | nil => intro fuel _; simp [chunksOfAux]
  | cons x xs ih =>
    intro fuel hfuel
    obtain ⟨k2, rfl⟩ : ∃ k2, k = k2 + 1 := ⟨k - 1, by omega⟩
    obtain ⟨f2, rfl⟩ : ∃ f2, fuel = f2 + 1 := ⟨fuel - 1, by simp at hfuel; omega⟩
    have hx : (x :: xs).flatMap (toLE (k2 + 1))
        = x % 256 :: (toLE k2 (x / 256) ++ xs.flatMap (toLE (k2 + 1))) := by
      simp [toLE]
    rw [hx]
    simp only [chunksOfAux]
    rw [List.take_succ_cons, List.drop_succ_cons,
      List.take_left' (toLE_length k2 (x / 256)), List.drop_left' (toLE_length k2 (x / 256))]
    rw [ih f2 (by simp at hfuel; omega)]
    simp [toLE]

theorem chunksOf_flatMap (k : Nat) (hk : 0 < k) (xs : List Nat) :
    chunksOf k (xs.flatMap (toLE k)) = xs.map (toLE k) := by
  rw [chunksOf]
  apply chunksOfAux_flatMap k hk
  rw [flatMap_toLE_length]
  exact Nat.le_mul_of_pos_left _ hk

theorem chunksOfAux_length_dvd (k : Nat) (hk : 0 < k) :
    ∀ (fuel : Nat) (l : List Nat), l.length ≤ fuel → k ∣ l.length →
    (chunksOfAux k fuel l).length = l.length / k := by
  intro fuel
  induction fuel with
  | zero =>
    intro l hl _
    have : l = [] := List.eq_nil_of_length_eq_zero (by omega)
    subst this
    simp [chunksOfAux]
  | succ fuel ih =>
    intro l hl hdvd
    match l with
    | [] => simp [chunksOfAux]
    | a :: l2 =>
      have hk2 : k ≤ (a :: l2).length := by
        rcases hdvd with ⟨c, hc⟩
        rcases Nat.eq_zero_or_pos c with rfl | hc2
        · simp at hc
        · calc k = k * 1 := by ring
            _ ≤ k * c := Nat.mul_le_mul_left k hc2
            _ = (a :: l2).length := hc.symm
      simp only [chunksOfAux, List.length_cons]
      rw [ih ((a :: l2).drop k) (by simp; simp at hl; omega)
        (by simp only [List.length_drop]; exact (Nat.dvd_sub' hdvd dvd_rfl))]
      have hk3 : k ≤ l2.length + 1 := by simpa using hk2
      rw [Nat.div_eq_sub_div hk hk3]
      simp

theorem chunksOf_length_dvd (k : Nat) (hk : 0 < k) (l : List Nat) (hdvd : k ∣ l.length) :
    (chunksOf k l).length = l.length / k := by
  rw [chunksOf]
  exact chunksOfAux_length_dvd k hk l.length l le_rfl hdvd

theorem structUnpack_flatMap (k : Nat) (hk : 0 < k) (xs : List Nat)
    (h : ∀ x ∈ xs, x < 256 ^ k) :
    structUnpack k xs.length (xs.flatMap (toLE k)) = .ok xs := by
  rw [structUnpack, if_pos (flatMap_toLE_length k xs)]
  rw [chunksOf_flatMap k hk xs]
  rw [List.map_map]
  have : xs.map (fromLE ∘ toLE k) = xs.map id := by
    apply List.map_congr_left
    intro x hx
    exact fromLE_toLE k x (h x hx)
  rw [this, List.map_id]

theorem div60_eq (q : ℚ) : div60 q = q / 60 := by
  rw [div60, Rat.mkRat_eq_div]
  push_cast
  rw [div_mul_eq_div_div]
  rw [Rat.num_div_den q]

theorem b64DecChar_error_eq (c : Nat) (e : PyErr) (h : b64DecChar c = .error e) :
    e = PyErr.b64Error := by
  unfold b64DecChar at h
  repeat' split at h
  all_goals simp_all

theorem b64decode_error_eq_aux : ∀ (n : Nat) (s : List Nat), s.length ≤ n →
    ∀ e, b64decode s = .error e → e = PyErr.b64Error := by
  intro n
  induction n with
  | zero =>
    intro s hs e h
    have : s = [] := List.eq_nil_of_length_eq_zero (by omega)
    subst this
    simp [b64decode] at h
  | succ n ih =>
    intro s hs
    match s with
    | [] => intro e h; simp [b64decode] at h
    | [a] => intro e h; exact (Except.error.inj h).symm
    | [a, b] => intro e h; exact (Except.error.inj h).symm
    | [a, b, c] => intro e h; exact (Except.error.inj h).symm
    | c1 :: c2 :: c3 :: c4 :: rest =>
      intro e h
      rw [b64decode] at h
      split at h
      · split at h
        · cases h1 : b64DecChar c1 with
          | error e1 => rw [h1] at h; simp at h; exact h ▸ b64DecChar_error_eq c1 e1 h1
          | ok d1 =>
            rw [h1] at h; simp at h
            cases h2 : b64DecChar c2 with
            | error e2 => rw [h2] at h; simp at h; exact h ▸ b64DecChar_error_eq c2 e2 h2
            | ok d2 => rw [h2] at h; simp at h
        · exact (Except.error.inj h).symm
      · split at h
        · split at h
          · cases h1 : b64DecChar c1 with
            | error e1 => rw [h1] at h; simp at h; exact h ▸ b64DecChar_error_eq c1 e1 h1
            | ok d1 =>
              rw [h1] at h; simp at h
              cases h2 : b64DecChar c2 with
              | error e2 => rw [h2] at h; simp at h; exact h ▸ b64DecChar_error_eq c2 e2 h2
              | ok d2 =>
                rw [h2] at h; simp at h
                cases h3 : b64DecChar c3 with
                | error e3 => rw [h3] at h; simp at h; exact h ▸ b64DecChar_error_eq c3 e3 h3
                | ok d3 => rw [h3] at h; simp at h
          · exact (Except.error.inj h).symm
        · cases h1 : b64DecChar c1 with
          | error e1 => rw [h1] at h; simp at h; exact h ▸ b64DecChar_error_eq c1 e1 h1
          | ok d1 =>
            rw [h1] at h; simp at h
            cases h2 : b64DecChar c2 with
            | error e2 => rw [h2] at h; simp at h; exact h ▸ b64DecChar_error_eq c2 e2 h2
            | ok d2 =>
              rw [h2] at h; simp at h
              cases h3 : b64DecChar c3 with
              | error e3 => rw [h3] at h; simp at h; exact h ▸ b64DecChar_error_eq c3 e3 h3
              | ok d3 =>
                rw [h3] at h; simp at h
                cases h4 : b64DecChar c4 with
                | error e4 => rw [h4] at h; simp at h; exact h ▸ b64DecChar_error_eq c4 e4 h4
                | ok d4 =>
                  rw [h4] at h; simp at h
                  cases h5 : b64decode rest with
                  | error e5 =>
                    rw [h5] at h; simp at h
                    exact h ▸ ih rest (by simp at hs; omega) e5 h5
                  | ok tail => rw [h5] at h; simp at h

theorem b64decode_error_eq (s : List Nat) (e : PyErr) (h : b64decode s = .error e) :
    e = PyErr.b64Error :=
  b64decode_error_eq_aux s.length s le_rfl e h

theorem inflateStoredAux_error_eq : ∀ (fuel : Nat) (l : List Nat) (e : PyErr),
    inflateStoredAux fuel l = .error e → e = PyErr.zlibError := by
  intro fuel
  induction fuel with
  | zero => intro l e h; simp [inflateStoredAux] at h; exact h.symm
  | succ fuel ih =>
    intro l e h
    match l with
    | [] => simp [inflateStoredAux] at h; exact h.symm
    | [b] => simp only [inflateStoredAux] at h; split at h <;> simp_all
    | [b, x] => simp only [inflateStoredAux] at h; split at h <;> simp_all
    | [b, x, y] => simp only [inflateStoredAux] at h; split at h <;> simp_all
    | [b, x, y, z] => simp only [inflateStoredAux] at h; split at h <;> simp_all
    | b :: l0 :: l1 :: n0 :: n1 :: rest =>
      simp only [inflateStoredAux] at h
      split at h
      · split at h
        · split at h
          · simp at h
          · split at h
            · simp at h
            · rename_i p heq
              simp at h
              exact h ▸ ih _ p heq
        · simp at h; exact h.symm
      · simp at h; exact h.symm

theorem zlibDecompress_error_eq (l : List Nat) (e : PyErr)
    (h : zlibDecompress l = .error e) : e = PyErr.zlibError := by
  match l with
  | [] => simp [zlibDecompress] at h; exact h.symm
  | [c] => simp [zlibDecompress] at h; exact h.symm
  | cmf :: flg :: rest =>
    simp only [zlibDecompress] at h
    split at h
    · split at h
      · split at h
        · simp at h
        · simp at h; exact h.symm
      · rename_i p heq
        simp at h
        exact h ▸ inflateStoredAux_error_eq _ _ p heq
    · simp at h; exact h.symm

theorem structUnpack_error_eq (k n : Nat) (d : List Nat) (e : PyErr)
    (h : structUnpack k n d = .error e) : e = PyErr.structError := by
  rw [structUnpack] at h
  split at h
  · simp at h
  · simp at h; exact h.symm

theorem comprMap_ok (s c : String) (h : comprMap s = .ok c) :
    c = "gzip" ∨ c = "none" := by
  rw [comprMap] at h
  repeat' split at h
  all_goals simp_all

theorem decodeOneMz_none_eval (m : FileMetadata) (raw : List Nat)
    (hc : m.compression = "none") (hb : ∀ b ∈ raw, b < 256) (hraw : raw ≠ [])
    (hp : 0 < m.mz_precision) :
    decodeOneMz m (some (b64encode raw))
      = structUnpack 8 (raw.length / m.mz_precision.toNat) raw := by
  rw [decodeOneMz]
  rw [if_neg (b64encode_ne_nil hraw)]
  rw [b64decode_encode raw hb]
  rw [bind_ok_eq]
  rw [hc]
  rw [if_pos rfl]
  simp only [bind_ok_eq]
  rw [if_neg (by omega), if_neg (by omega)]

theorem decodeOneInt_none_eval (m : FileMetadata) (raw : List Nat)
    (hc : m.compression = "none") (hb : ∀ b ∈ raw, b < 256) (hraw : raw ≠ [])
    (hp : 0 < m.int_precision) :
    decodeOneInt m (some (b64encode raw))
      = structUnpack 4 (raw.length / m.int_precision.toNat) raw := by
  rw [decodeOneInt]
  rw [if_neg (b64encode_ne_nil hraw)]
  rw [b64decode_encode raw hb]
  rw [bind_ok_eq]
  rw [hc]
  rw [if_pos rfl]
  simp only [bind_ok_eq]
  rw [if_neg (by omega), if_neg (by omega)]

theorem decodeOneMz_gzip_eval (m : FileMetadata) (raw : List Nat)
    (hc : m.compression = "gzip") (hb : ∀ b ∈ raw, b < 256)
    (hp : 0 < m.mz_precision) :
    decodeOneMz m (some (b64encode (zlibCompress raw)))
      = structUnpack 8 (raw.length / m.mz_precision.toNat) raw := by
  rw [decodeOneMz]
  rw [if_neg (b64encode_ne_nil (zlibCompress_ne_nil raw))]
  rw [b64decode_encode (zlibCompress raw) (zlibCompress_lt_256 raw hb)]
  rw [bind_ok_eq]
  rw [hc]
  rw [if_neg (by decide), if_neg (by decide), if_pos rfl]
  rw [zlib_roundtrip raw]
  simp only [bind_ok_eq]
  rw [if_neg (by omega), if_neg (by omega)]

theorem structUnpack_ne_unsupported (k n : Nat) (d : List Nat) :
    structUnpack k n d ≠ .error PyErr.unsupportedCompressionError := by
  intro h
  cases structUnpack_error_eq k n d _ h

theorem decodeOneMz_ne_unsupported (m : FileMetadata)
    (hc : m.compression = "none" ∨ m.compression = "gzip") (t : Option (List Nat)) :
    decodeOneMz m t ≠ .error PyErr.unsupportedCompressionError := by
  match t with
  | none => simp [decodeOneMz]
  | some s =>
    rw [decodeOneMz]
    by_cases hs : s = []
    · simp [hs]
    · rw [if_neg hs]
      cases hb : b64decode s with
      | error e =>
        rw [bind_error_eq]
        intro h
        cases (Except.error.inj h) ▸ b64decode_error_eq s e hb
      | ok raw =>
        rw [bind_ok_eq]
        rcases hc with hc | hc <;> rw [hc]
        · rw [if_pos rfl, bind_ok_eq]
          split
          · simp
          · split
            · simp
            · exact structUnpack_ne_unsupported _ _ _
        · rw [if_neg (by decide), if_neg (by decide), if_pos rfl]
          cases hz : zlibDecompress raw with
          | error e =>
            rw [bind_error_eq]
            intro h
            cases (Except.error.inj h) ▸ zlibDecompress_error_eq raw e hz
          | ok decomp =>
            rw [bind_ok_eq]
            split
            · simp
            · split
              · simp
              · exact structUnpack_ne_unsupported _ _ _

theorem decodeOneInt_ne_unsupported (m : FileMetadata)
    (hc : m.compression = "none" ∨ m.compression = "gzip") (t : Option (List Nat)) :
    decodeOneInt m t ≠ .error PyErr.unsupportedCompressionError := by
  match t with
  | none => simp [decodeOneInt]
  | some s =>
    rw [decodeOneInt]
    by_cases hs : s = []
    · simp [hs]
    · rw [if_neg hs]
      cases hb : b64decode s with
      | error e =>
        rw [bind_error_eq]
        intro h
        cases (Except.error.inj h) ▸ b64decode_error_eq s e hb
      | ok raw =>
        rw [bind_ok_eq]
        rcases hc with hc | hc <;> rw [hc]
        · rw [if_pos rfl, bind_ok_eq]
          split
          · simp
          · split
            · simp
            · exact structUnpack_ne_unsupported _ _ _
        · rw [if_neg (by decide), if_neg (by decide), if_pos rfl]
          cases hz : zlibDecompress raw with
          | error e =>
            rw [bind_error_eq]
            intro h
            cases (Except.error.inj h) ▸ zlibDecompress_error_eq raw e hz
          | ok decomp =>
            rw [bind_ok_eq]
            split
            · simp
            · split
              · simp
              · exact structUnpack_ne_unsupported _ _ _

theorem metadata_compression (doc : Xml) (m : FileMetadata)
    (hok : grabMzmlEncodingData doc = .ok m) :
    m.compression = "none" ∨ m.compression = "gzip" := by
  rw [grabMzmlEncodingData] at hok
  repeat' split at hok
  any_goals exact Except.noConfusion hok
  all_goals obtain rfl := Except.ok.inj hok
  all_goals rcases comprMap_ok _ _ (by assumption) with h | h
  all_goals simp_all

theorem flatMap_const_eq {α β : Type} (l : List α) (Q : List β) :
    l.flatMap (fun _ => Q) = (List.replicate l.length Q).flatten := by
  induction l with
  | nil => simp
  | cons x l ih => simp [List.replicate_succ, ih]

theorem flatten_replicate_length {α : Type} (n : Nat) (Q : List α) :
    ((List.replicate n Q).flatten).length = n * Q.length := by
  induction n with
  | zero => simp
  | succ n ih => simp [List.replicate_succ, ih]; ring

theorem mapM_ok_append {α β : Type} (f : α → Except PyErr β) :
    ∀ (l1 : List α) (v1 : List β), l1.mapM f = .ok v1 →
    ∀ (l2 : List α) (v2 : List β), l2.mapM f = .ok v2 →
    (l1 ++ l2).mapM f = .ok (v1 ++ v2) := by
  intro l1
  induction l1 with
  | nil =>
    intro v1 h1 l2 v2 h2
    rw [List.mapM_nil] at h1
    obtain rfl : [] = v1 := Except.ok.inj h1
    simpa using h2
  | cons a l1 ih =>
    intro v1 h1 l2 v2 h2
    rw [List.mapM_cons] at h1
    cases hfa : f a with
    | error e => rw [hfa] at h1; simp at h1
    | ok b =>
      rw [hfa] at h1
      simp only [bind_ok_eq] at h1
      cases hl : l1.mapM f with
      | error e => rw [hl] at h1; simp at h1
      | ok bs =>
        rw [hl] at h1
        simp at h1
        subst h1
        rw [List.cons_append, List.mapM_cons, hfa, bind_ok_eq,
          ih bs hl l2 v2 h2]
        simp

theorem mapM_flatten_replicate {α β : Type} (f : α → Except PyErr β) (Q : List α)
    (vs : List β) (h : Q.mapM f = .ok vs) :
    ∀ n : Nat, (List.flatten (List.replicate n Q)).mapM f
      = .ok (List.flatten (List.replicate n vs)) := by
  intro n
  induction n with
  | zero => rfl
  | succ n ih =>
    simp only [List.replicate_succ, List.flatten_cons]
    exact mapM_ok_append f Q vs h _ _ ih

theorem zip_map_len_flatMap (rts : List ℚ) :
    ∀ mzs : List (List Nat),
    (rts.zip (mzs.map List.length)).flatMap (fun vr => List.replicate vr.2 vr.1)
      = (rts.zip mzs).flatMap (fun p => List.replicate p.2.length p.1) := by
  induction rts with
  | nil => intro mzs; simp
  | cons r rts ih =>
    intro mzs
    cases mzs with
    | nil => simp
    | cons mz mzs => simp [ih]

theorem broadcast_length (rts : List ℚ) :
    ∀ mzs : List (List Nat), rts.length = mzs.length →
    ((rts.zip mzs).flatMap (fun p => List.replicate p.2.length p.1)).length
      = (mzs.map List.length).sum := by
  induction rts with
  | nil =>
    intro mzs h
    have : mzs = [] := List.eq_nil_of_length_eq_zero (by simp at h; omega)
    subst this
    simp
  | cons r rts ih =>
    intro mzs h
    cases mzs with
    | nil => simp at h
    | cons mz mzs =>
      simp only [List.zip_cons_cons, List.flatMap_cons, List.length_append,
        List.length_replicate, List.map_cons, List.sum_cons]
      rw [ih mzs (by simp at h; omega)]

/-! ## Claims -/

/-- Claim C1 (counterexample): the claim says a 4-byte resolved mz width is
decoded as single precision, producing `len / 4` values; in fact the mz
decoder's format character is hard-coded to `d`, so on a 4-byte blob with
`mz_precision = 4` it raises `struct.error` instead of returning one value. -/
theorem c1_counterexample :
    decodeOneMz (⟨"none", 4, 4, "little"⟩ : FileMetadata) (some (b64encode [0, 0, 0, 0]))
      = .error PyErr.structError := by decide

/-- Claim C1 (amended): the decoders unpack little-endian values in order with
count `decompressed length / resolved width`, but the element width actually
unpacked is hard-coded per array kind — 8 bytes (double) for mz, 4 bytes
(single) for intensity.  When the resolved width equals the hard-coded one
and divides the byte length, exactly `len / width` values are produced in
order; a 4-byte mz width, or an 8-byte intensity width, instead makes
`struct.unpack` fail on every non-empty blob. -/
theorem c1_amended (m : FileMetadata) (raw : List Nat)
    (hc : m.compression = "none") (hb : ∀ b ∈ raw, b < 256) (hraw : raw ≠ []) :
    (m.mz_precision = 8 → 8 ∣ raw.length →
      decodeOneMz m (some (b64encode raw)) = .ok ((chunksOf 8 raw).map fromLE)
        ∧ ((chunksOf 8 raw).map fromLE).length = raw.length / 8)
    ∧ (m.int_precision = 4 → 4 ∣ raw.length →
      decodeOneInt m (some (b64encode raw)) = .ok ((chunksOf 4 raw).map fromLE)
        ∧ ((chunksOf 4 raw).map fromLE).length = raw.length / 4)
    ∧ (m.mz_precision = 4 →
      decodeOneMz m (some (b64encode raw)) = .error PyErr.structError)
    ∧ (m.int_precision = 8 →
      decodeOneInt m (some (b64encode raw)) = .error PyErr.structError) := by
  have hlen : raw.length ≠ 0 := fun h => hraw (List.eq_nil_of_length_eq_zero h)
  refine ⟨?_, ?_, ?_, ?_⟩
  · intro hp hdvd
    rw [decodeOneMz_none_eval m raw hc hb hraw (by omega), hp]
    have ht : ((8 : Int)).toNat = 8 := rfl
    rw [ht]
    constructor
    · rw [structUnpack, if_pos (Nat.mul_div_cancel' hdvd).symm]
    · rw [List.length_map, chunksOf_length_dvd 8 (by norm_num) raw hdvd]
  · intro hp hdvd
    rw [decodeOneInt_none_eval m raw hc hb hraw (by omega), hp]
    have ht : ((4 : Int)).toNat = 4 := rfl
    rw [ht]
    constructor
    · rw [structUnpack, if_pos (Nat.mul_div_cancel' hdvd).symm]
    · rw [List.length_map, chunksOf_length_dvd 4 (by norm_num) raw hdvd]
  · intro hp
    rw [decodeOneMz_none_eval m raw hc hb hraw (by omega), hp]
    have ht : ((4 : Int)).toNat = 4 := rfl
    rw [ht]
    rw [structUnpack, if_neg (by omega)]
  · intro hp
    rw [decodeOneInt_none_eval m raw hc hb hraw (by omega), hp]
    have ht : ((8 : Int)).toNat = 8 := rfl
    rw [ht]
    rw [structUnpack, if_neg (by omega)]

/-- Witness for the amended C1 at concrete blobs and widths. -/
theorem c1_amended_witness :
    (decodeOneMz (⟨"none", 8, 4, "little"⟩ : FileMetadata) (some (b64encode (toLE 8 77))) = .ok [77])
    ∧ (decodeOneInt (⟨"none", 8, 4, "little"⟩ : FileMetadata) (some (b64encode (toLE 4 9))) = .ok [9])
    ∧ (decodeOneMz (⟨"none", 4, 4, "little"⟩ : FileMetadata) (some (b64encode (toLE 4 9)))
      = .error PyErr.structError)
    ∧ (decodeOneInt (⟨"none", 8, 8, "little"⟩ : FileMetadata) (some (b64encode (toLE 8 77)))
      = .error PyErr.structError) := by
  refine ⟨?_, ?_, ?_, ?_⟩
  · have h := (c1_amended (⟨"none", 8, 4, "little"⟩ : FileMetadata) (toLE 8 77) rfl
      (by decide) (by decide)).1 rfl (by decide)
    rw [h.1]
    decide
  · have h := (c1_amended (⟨"none", 8, 4, "little"⟩ : FileMetadata) (toLE 4 9) rfl
      (by decide) (by decide)).2.1 rfl (by decide)
    rw [h.1]
    decide
  · exact (c1_amended (⟨"none", 4, 4, "little"⟩ : FileMetadata) (toLE 4 9) rfl
      (by decide) (by decide)).2.2.1 rfl
  · exact (c1_amended (⟨"none", 8, 8, "little"⟩ : FileMetadata) (toLE 8 77) rfl
      (by decide) (by decide)).2.2.2 rfl

/-- Claim C2 (counterexample): the claim says a blob whose byte length is not
a multiple of the element width is silently truncated by integer division; in
fact `struct.unpack` requires the buffer to match the floored count exactly
and decoding fails with `struct.error` (here: 12 bytes at width 8). -/
theorem c2_counterexample :
    decodeOneMz (⟨"none", 8, 8, "little"⟩ : FileMetadata) (some (b64encode (List.replicate 12 0)))
      = .error PyErr.structError := by decide

/-- Claim C2 (amended): when the decompressed byte length is not an even
multiple of the hard-coded element width (8 for mz, 4 for intensity),
decoding does not truncate: the element count is floored by the resolved
width, and `struct.unpack` then raises `struct.error` because the buffer does
not have exactly `count * width` bytes. -/
theorem c2_amended (m : FileMetadata) (raw : List Nat)
    (hc : m.compression = "none") (hb : ∀ b ∈ raw, b < 256) :
    (m.mz_precision = 8 → ¬ (8 ∣ raw.length) →
      decodeOneMz m (some (b64encode raw)) = .error PyErr.structError)
    ∧ (m.int_precision = 4 → ¬ (4 ∣ raw.length) →
      decodeOneInt m (some (b64encode raw)) = .error PyErr.structError) := by
  constructor
  · intro hp hdvd
    have hraw : raw ≠ [] := by
      intro h
      exact hdvd (by simp [h])
    rw [decodeOneMz_none_eval m raw hc hb hraw (by omega), hp]
    have ht : ((8 : Int)).toNat = 8 := rfl
    rw [ht]
    rw [structUnpack, if_neg (by omega)]
  · intro hp hdvd
    have hraw : raw ≠ [] := by
      intro h
      exact hdvd (by simp [h])
    rw [decodeOneInt_none_eval m raw hc hb hraw (by omega), hp]
    have ht : ((4 : Int)).toNat = 4 := rfl
    rw [ht]
    rw [structUnpack, if_neg (by omega)]

/-- Witness for the amended C2: a 12-byte mz blob at width 8 and a 6-byte
intensity blob at width 4 both fail with `struct.error`. -/
theorem c2_amended_witness :
    (decodeOneMz (⟨"none", 8, 4, "little"⟩ : FileMetadata) (some (b64encode (List.replicate 12 0)))
      = .error PyErr.structError)
    ∧ (decodeOneInt (⟨"none", 8, 4, "little"⟩ : FileMetadata) (some (b64encode (List.replicate 6 0)))
      = .error PyErr.structError) :=
  ⟨(c2_amended _ (List.replicate 12 0) rfl (by decide)).1 rfl (by decide),
   (c2_amended _ (List.replicate 6 0) rfl (by decide)).2 rfl (by decide)⟩

/-- Claim C3: compressing a sequence of 8-byte little-endian values with the
single supported codec, base64-encoding, and decoding through the pipeline in
compressed mode returns the identical sequence; the two compressed source
labels (`zlib` and `zlib compression`) map to the same single compressed mode
`gzip`, and the decoder treats the `zlib` and `gzip` modes by the identical
inflate routine. -/
theorem c3_compressed_roundtrip (xs : List Nat) (h64 : ∀ x ∈ xs, x < 2 ^ 64)
    (m : FileMetadata) (hc : m.compression = "gzip") (hp : m.mz_precision = 8) :
    decodeOneMz m (some (b64encode (zlibCompress (xs.flatMap (toLE 8))))) = .ok xs
    ∧ comprMap "zlib" = .ok "gzip"
    ∧ comprMap "zlib compression" = .ok "gzip"
    ∧ (∀ (p i : Int) (e : String) (t : Option (List Nat)),
        decodeOneMz (⟨"zlib", p, i, e⟩ : FileMetadata) t
          = decodeOneMz (⟨"gzip", p, i, e⟩ : FileMetadata) t)
    ∧ (∀ (p i : Int) (e : String) (t : Option (List Nat)),
        decodeOneInt (⟨"zlib", p, i, e⟩ : FileMetadata) t
          = decodeOneInt (⟨"gzip", p, i, e⟩ : FileMetadata) t) := by
  refine ⟨?_, rfl, rfl, ?_, ?_⟩
  · rw [decodeOneMz_gzip_eval m _ hc (flatMap_toLE_lt_256 8 xs) (by omega), hp]
    have ht : ((8 : Int)).toNat = 8 := rfl
    rw [ht]
    rw [flatMap_toLE_length 8 xs, Nat.mul_div_cancel_left _ (by norm_num)]
    apply structUnpack_flatMap 8 (by norm_num) xs
    intro x hx
    have h2 : (256 : Nat) ^ 8 = 2 ^ 64 := by norm_num
    rw [h2]
    exact h64 x hx
  · intro p i e t
    match t with
    | none => rfl
    | some s =>
      by_cases hs : s = []
      · simp [decodeOneMz, hs]
      · rw [decodeOneMz, decodeOneMz, if_neg hs, if_neg hs]
        rfl
  · intro p i e t
    match t with
    | none => rfl
    | some s =>
      by_cases hs : s = []
      · simp [decodeOneInt, hs]
      · rw [decodeOneInt, decodeOneInt, if_neg hs, if_neg hs]
        rfl

/-- Witness for C3 at the concrete sequence `[100, 200]`. -/
theorem c3_witness :
    decodeOneMz (⟨"gzip", 8, 4, "little"⟩ : FileMetadata)
      (some (b64encode (zlibCompress ([100, 200].flatMap (toLE 8))))) = .ok [100, 200] :=
  (c3_compressed_roundtrip [100, 200] (by decide) _ rfl rfl).1

/-- Claim C4: the MS1 table broadcasts each spectrum's retention time across
every (mz, intensity) pair of that spectrum and concatenates across spectra
in document order; a spectrum with zero peaks contributes zero rows
(replication over an empty array yields nothing), and the number of rows is
the total number of decoded mz values. -/
theorem c4_ms1_broadcast (doc : Xml) (m : FileMetadata) (n0 : Xml) (ns : List Xml)
    (rts : List ℚ) (mzs ints : List (List Nat))
    (hd : ms1Nodes doc = n0 :: ns)
    (hrt : grabSpectraRt (n0 :: ns) = .ok rts)
    (hmz : grabSpectraMz (n0 :: ns) m = .ok mzs)
    (hint : grabSpectraInt (n0 :: ns) m = .ok ints)
    (hlen : rts.length = mzs.length)
    (hmzne : mzs ≠ []) (hintne : ints ≠ [])
    (hsum : ints.flatten.length = mzs.flatten.length) :
    grabMzmlMS1 doc m = .ok
      [("rt", ((rts.zip mzs).flatMap (fun p => List.replicate p.2.length p.1)).map PyVal.f),
       ("mz", mzs.flatten.map PyVal.bits),
       ("int", ints.flatten.map PyVal.bits)]
    ∧ (((rts.zip mzs).flatMap (fun p => List.replicate p.2.length p.1)).map PyVal.f).length
      = (mzs.map List.length).sum := by
  have hbc := broadcast_length rts mzs hlen
  constructor
  · obtain ⟨mz0, mztl, rfl⟩ : ∃ a l, mzs = a :: l := by
      cases mzs with
      | nil => exact absurd rfl hmzne
      | cons a l => exact ⟨a, l, rfl⟩
    obtain ⟨int0, inttl, rfl⟩ : ∃ a l, ints = a :: l := by
      cases ints with
      | nil => exact absurd rfl hintne
      | cons a l => exact ⟨a, l, rfl⟩
    simp only [grabMzmlMS1, hd]
    rw [hrt, hmz, hint]
    simp only [bind_ok_eq]
    rw [npRepeat, if_pos (by simp [hlen])]
    simp only [bind_ok_eq]
    rw [zip_map_len_flatMap]
    rw [npConcatenate, npConcatenate]
    simp only [bind_ok_eq]
    rw [mkDataFrame, if_pos ?_]
    have hsum2 : int0.length + (inttl.map List.length).sum
        = mz0.length + (mztl.map List.length).sum := by
      simpa [List.length_flatten] using hsum
    simp [List.length_flatten, hbc, hsum2, Function.comp_def]
  · rw [List.length_map, hbc]

/-- Witness for C4: two spectra with retention times 1.0 and 2.0 minutes and
mz lengths 3 and 1 give a 4-row table with rt column `[1, 1, 1, 2]`, and an
added zero-peak spectrum contributes no rows. -/
theorem c4_witness :
    (grabMzmlMS1 c4doc c4meta = .ok
      [("rt", [PyVal.f 1, PyVal.f 1, PyVal.f 1, PyVal.f 2]),
       ("mz", [PyVal.bits 1, PyVal.bits 2, PyVal.bits 3, PyVal.bits 4]),
       ("int", [PyVal.bits 7, PyVal.bits 8, PyVal.bits 9, PyVal.bits 10])])
    ∧ (grabMzmlMS1 c4docZ c4meta = .ok
      [("rt", [PyVal.f 1, PyVal.f 1, PyVal.f 1, PyVal.f 2]),
       ("mz", [PyVal.bits 1, PyVal.bits 2, PyVal.bits 3, PyVal.bits 4]),
       ("int", [PyVal.bits 7, PyVal.bits 8, PyVal.bits 9, PyVal.bits 10])]) := by
  constructor
  · have h := (c4_ms1_broadcast c4doc c4meta _ _ [1, 2] [[1, 2, 3], [4]] [[7, 8, 9], [10]]
      rfl (by decide) (by decide) (by decide) rfl (by decide) (by decide) (by decide)).1
    rw [h]
    decide
  · have h := (c4_ms1_broadcast c4docZ c4meta _ _ [1, 2, 9] [[1, 2, 3], [4], []]
      [[7, 8, 9], [10], []]
      rfl (by decide) (by decide) (by decide) rfl (by decide) (by decide) (by decide)).1
    rw [h]
    decide

/-- Claim C5 (counterexample): nothing forces the mz and intensity arrays of
one spectrum to have equal length — this spectrum's mz blob decodes to one
8-byte value while its intensity blob decodes to two 4-byte values. -/
theorem c5_counterexample :
    grabSpectraMz [c5spectrum] (⟨"none", 8, 4, "little"⟩ : FileMetadata) = .ok [[5]]
    ∧ grabSpectraInt [c5spectrum] (⟨"none", 8, 4, "little"⟩ : FileMetadata) = .ok [[9, 0]]
    ∧ [[(5 : Nat)]].map List.length ≠ [[(9 : Nat), 0]].map List.length := by
  refine ⟨by decide, by decide, by decide⟩

/-- Claim C5 (amended): the two array lengths are determined independently by
the two blobs — `mzBytes / 8` and `intBytes / 4` for the standard widths —
so they agree exactly when the document's paired blobs encode equal counts;
the code does not enforce this for arbitrary input documents. -/
theorem c5_amended (m : FileMetadata) (rawMz rawInt : List Nat)
    (hc : m.compression = "none") (hp8 : m.mz_precision = 8) (hp4 : m.int_precision = 4)
    (hbMz : ∀ b ∈ rawMz, b < 256) (hbInt : ∀ b ∈ rawInt, b < 256)
    (hneMz : rawMz ≠ []) (hneInt : rawInt ≠ [])
    (hdMz : 8 ∣ rawMz.length) (hdInt : 4 ∣ rawInt.length) :
    ∃ l1 l2 : List Nat,
      decodeOneMz m (some (b64encode rawMz)) = .ok l1
      ∧ decodeOneInt m (some (b64encode rawInt)) = .ok l2
      ∧ l1.length = rawMz.length / 8
      ∧ l2.length = rawInt.length / 4
      ∧ (l1.length = l2.length ↔ rawMz.length / 8 = rawInt.length / 4) := by
  refine ⟨(chunksOf 8 rawMz).map fromLE, (chunksOf 4 rawInt).map fromLE, ?_, ?_, ?_, ?_, ?_⟩
  · rw [decodeOneMz_none_eval m rawMz hc hbMz hneMz (by omega), hp8]
    have ht : ((8 : Int)).toNat = 8 := rfl
    rw [ht, structUnpack, if_pos (Nat.mul_div_cancel' hdMz).symm]
  · rw [decodeOneInt_none_eval m rawInt hc hbInt hneInt (by omega), hp4]
    have ht : ((4 : Int)).toNat = 4 := rfl
    rw [ht, structUnpack, if_pos (Nat.mul_div_cancel' hdInt).symm]
  · rw [List.length_map, chunksOf_length_dvd 8 (by norm_num) rawMz hdMz]
  · rw [List.length_map, chunksOf_length_dvd 4 (by norm_num) rawInt hdInt]
  · rw [List.length_map, List.length_map, chunksOf_length_dvd 8 (by norm_num) rawMz hdMz,
      chunksOf_length_dvd 4 (by norm_num) rawInt hdInt]

/-- Witness for the amended C5 at equal-count blobs (8 mz bytes, 4 intensity
bytes, one element each). -/
theorem c5_amended_witness :
    ∃ l1 l2 : List Nat,
      decodeOneMz (⟨"none", 8, 4, "little"⟩ : FileMetadata)
        (some (b64encode (toLE 8 5))) = .ok l1
      ∧ decodeOneInt (⟨"none", 8, 4, "little"⟩ : FileMetadata)
        (some (b64encode (toLE 4 9))) = .ok l2
      ∧ l1.length = (toLE 8 5).length / 8
      ∧ l2.length = (toLE 4 9).length / 4
      ∧ (l1.length = l2.length ↔ (toLE 8 5).length / 8 = (toLE 4 9).length / 4) :=
  c5_amended (⟨"none", 8, 4, "little"⟩ : FileMetadata) (toLE 8 5) (toLE 4 9)
    rfl rfl rfl (by decide) (by decide) (by decide) (by decide) (by decide) (by decide)

/-- Claim C6: for every document and every requested output kind
independently, no spectra matching that kind yields a table with zero rows
but the full defined column set — never an absent result.  Each conjunct
carries only its own kind's emptiness hypothesis, so the theorem applies
per kind (e.g. MS2 requested from an MS1-only document). -/
theorem c6_empty_tables (doc : Xml) (m : FileMetadata) :
    (ms1Nodes doc = [] →
      grabMzmlMS1 doc m = .ok [("rt", []), ("mz", []), ("int", [])])
    ∧ (ms2Nodes doc = [] →
      grabMzmlMS2 doc m
        = .ok [("rt", []), ("premz", []), ("fragmz", []), ("int", []), ("voltage", [])])
    ∧ (bpcNodes doc "base peak intensity" = [] →
      grabMzmlBPC doc false = .ok [("rt", []), ("int", [])])
    ∧ (bpcNodes doc "total ion current" = [] →
      grabMzmlBPC doc true = .ok [("rt", []), ("int", [])]) := by
  refine ⟨?_, ?_, ?_, ?_⟩
  · intro h1
    simp [grabMzmlMS1, h1]
  · intro h2
    simp [grabMzmlMS2, h2]
  · intro h3
    rw [grabMzmlBPC]
    simp only [Bool.false_eq_true, if_neg (by decide : ¬False), h3]
    rfl
  · intro h4
    rw [grabMzmlBPC]
    simp only [if_pos trivial, h4]
    rfl

/-- Witness for C6.  The central per-kind case first: `c4doc` holds two MS1
spectra and no MS2 spectra, and requesting MS2 from it still returns the
empty five-column table; the remaining conjuncts are instantiated on `c4doc`
(no BPC/TIC fields) and on the spectrum-free `c6doc`. -/
theorem c6_witness :
    grabMzmlMS2 c4doc c4meta
      = .ok [("rt", []), ("premz", []), ("fragmz", []), ("int", []), ("voltage", [])]
    ∧ grabMzmlMS1 c6doc c4meta = .ok [("rt", []), ("mz", []), ("int", [])]
    ∧ grabMzmlBPC c4doc false = .ok [("rt", []), ("int", [])]
    ∧ grabMzmlBPC c4doc true = .ok [("rt", []), ("int", [])] :=
  ⟨(c6_empty_tables c4doc c4meta).2.1 rfl,
   (c6_empty_tables c6doc c4meta).1 rfl,
   (c6_empty_tables c4doc c4meta).2.2.1 rfl,
   (c6_empty_tables c4doc c4meta).2.2.2 rfl⟩

/-- Claim C7: unit conversion is a single batch-wide decision over the
distinct unit labels of all matched scan-start-time nodes: every retention
time in the batch is divided by 60 exactly when no collected label equals
`minute`; when some spectrum's unit is `minute`, no value is divided. -/
theorem c7_rt_unit_conversion (nodes : List Xml) (vals : List ℚ)
    (hparse : (nodes.flatMap rtNodesOf).mapM
      (fun n => do pyFloatParse (← attrD n "value")) = .ok vals) :
    (((nodes.flatMap rtNodesOf).map (fun n => attrGet n "unitName")).contains
        (some "minute") = false →
      grabSpectraRt nodes = .ok (vals.map (fun v => v / 60)))
    ∧ (((nodes.flatMap rtNodesOf).map (fun n => attrGet n "unitName")).contains
        (some "minute") = true →
      grabSpectraRt nodes = .ok vals) := by
  constructor
  · intro hu
    rw [grabSpectraRt, hparse]
    simp only [bind_ok_eq]
    rw [hu]
    have he : vals.map div60 = vals.map (fun v => v / 60) :=
      List.map_congr_left (fun v _ => div60_eq v)
    simp [he]
  · intro hu
    rw [grabSpectraRt, hparse]
    simp only [bind_ok_eq]
    rw [hu]
    simp

/-- Witness for C7: 120 seconds becomes 2.0 minutes; 3.0 minutes stays 3.0. -/
theorem c7_witness :
    grabSpectraRt [c7secSpectrum] = .ok [2]
    ∧ grabSpectraRt [c7minSpectrum] = .ok [3] := by
  constructor
  · have h := (c7_rt_unit_conversion [c7secSpectrum] [120] (by decide)).1 (by decide)
    rw [h]
    have h2 : (120 : ℚ) / 60 = 2 := by norm_num
    rw [List.map_cons, List.map_nil, h2]
  · exact (c7_rt_unit_conversion [c7minSpectrum] [3] (by decide)).2 (by decide)

/-- Claim C8: on a document whose first matching metadata fields declare no
compression, a 64-bit mz width and a 32-bit intensity width, metadata
extraction yields compression `none`, mz byte width 8 and intensity byte
width 4; when the intensity width field is absent, the intensity width
defaults to the mz byte width. -/
theorem c8_metadata (doc : Xml) (i0 cn mn : Xml) (irest crest mrest : List Xml)
    (hinit : initNodes doc = i0 :: irest)
    (hcompr : comprNodes doc = cn :: crest)
    (hcname : attrGet cn "name" = some "no compression")
    (hmz : mzPrecNodes doc = mn :: mrest)
    (hmname : attrGet mn "name" = some "64-bit float") :
    (∀ (im : Xml) (imrest : List Xml), intPrecNodes doc = im :: imrest →
      attrGet im "name" = some "32-bit float" →
      grabMzmlEncodingData doc
        = .ok (⟨"none", 8, 4, "little"⟩ : FileMetadata))
    ∧ (intPrecNodes doc = [] →
      grabMzmlEncodingData doc
        = .ok (⟨"none", 8, 8, "little"⟩ : FileMetadata)) := by
  constructor
  · intro im imrest hintp himname
    rw [grabMzmlEncodingData, hinit, hcompr, hmz, hintp]
    simp only [attrD, hcname, hmname, himname]
    rfl
  · intro hintp
    rw [grabMzmlEncodingData, hinit, hcompr, hmz, hintp]
    simp only [attrD, hcname, hmname]
    rfl

/-- Witness for C8 on concrete documents, with and without the intensity
width field. -/
theorem c8_witness :
    grabMzmlEncodingData c8doc = .ok (⟨"none", 8, 4, "little"⟩ : FileMetadata)
    ∧ grabMzmlEncodingData c8docDefault
      = .ok (⟨"none", 8, 8, "little"⟩ : FileMetadata) :=
  ⟨(c8_metadata c8doc _ _ _ _ _ _ rfl rfl rfl rfl rfl).1 _ _ rfl rfl,
   (c8_metadata c8docDefault _ _ _ _ _ _ rfl rfl rfl rfl rfl).2 rfl⟩

/-- Claim C9: metadata produced by `grabMzmlEncodingData` always carries
compression `none` or `gzip`, so the trailing unsupported-compression branch
of both binary decoders is unreachable for such metadata; an unrecognized
compression label instead fails earlier, during metadata extraction, with
the dictionary lookup `KeyError`. -/
theorem c9_unsupported_unreachable :
    (∀ (doc : Xml) (m : FileMetadata), grabMzmlEncodingData doc = .ok m →
      (m.compression = "none" ∨ m.compression = "gzip")
      ∧ (∀ t, decodeOneMz m t ≠ .error PyErr.unsupportedCompressionError)
      ∧ (∀ t, decodeOneInt m t ≠ .error PyErr.unsupportedCompressionError))
    ∧ (∀ (doc i0 cn : Xml) (irest crest : List Xml) (lbl : String),
      initNodes doc = i0 :: irest → comprNodes doc = cn :: crest →
      attrGet cn "name" = some lbl →
      lbl ≠ "zlib" → lbl ≠ "zlib compression" → lbl ≠ "no compression" → lbl ≠ "none" →
      grabMzmlEncodingData doc = .error PyErr.keyError) := by
  constructor
  · intro doc m hok
    have hcc := metadata_compression doc m hok
    exact ⟨hcc, fun t => decodeOneMz_ne_unsupported m hcc t,
      fun t => decodeOneInt_ne_unsupported m hcc t⟩
  · intro doc i0 cn irest crest lbl hi hcn hlbl h1 h2 h3 h4
    rw [grabMzmlEncodingData, hi, hcn]
    simp only [attrD, hlbl]
    rw [comprMap, if_neg h1, if_neg h2, if_neg h3, if_neg h4]

/-- Witness for C9: the metadata of `c8doc` keeps every decoder away from the
unsupported-compression branch, and the unrecognized label of `c9badDoc`
fails during metadata extraction. -/
theorem c9_witness :
    ((⟨"none", 8, 4, "little"⟩ : FileMetadata).compression = "none"
      ∨ (⟨"none", 8, 4, "little"⟩ : FileMetadata).compression = "gzip")
    ∧ decodeOneMz (⟨"none", 8, 4, "little"⟩ : FileMetadata) (some [65, 65, 65, 65])
      ≠ .error PyErr.unsupportedCompressionError
    ∧ decodeOneInt (⟨"none", 8, 4, "little"⟩ : FileMetadata) (some [65, 65, 65, 65])
      ≠ .error PyErr.unsupportedCompressionError
    ∧ grabMzmlEncodingData c9badDoc = .error PyErr.keyError := by
  have hA := c9_unsupported_unreachable.1 c8doc (⟨"none", 8, 4, "little"⟩ : FileMetadata)
    (by decide)
  exact ⟨hA.1, hA.2.1 _, hA.2.2 _,
    c9_unsupported_unreachable.2 c9badDoc _ _ _ _ "lzma compression" rfl rfl rfl
      (by decide) (by decide) (by decide) (by decide)⟩

/-- Claim C10: the precursor-m/z and collision-energy extractors evaluate
document-absolute queries from each node, so each per-spectrum query returns
every matching `cvParam` of the whole document: for `N` input nodes and `M`
document-wide matches (`M ≥ 1` for the voltage extractor), the returned list
has length `N * M` rather than one value per spectrum. -/
theorem c10_absolute_queries (doc : Xml) (nodes : List Xml)
    (premzs : List ℚ) (volts : List Int)
    (hpre : (premzNodesDoc doc).mapM (fun n =>
        match attrGet n "value" with
        | none => Except.error PyErr.typeError
        | some v => pyFloatParse v) = .ok premzs) :
    (grabSpectraPremz doc nodes = .ok (List.flatten (List.replicate nodes.length premzs))
      ∧ (List.flatten (List.replicate nodes.length premzs)).length
        = nodes.length * premzs.length)
    ∧ (∀ (v0 n0 : Xml) (vrest nrest : List Xml),
        voltNodesDoc doc = v0 :: vrest → nodes = n0 :: nrest →
        (voltNodesDoc doc).mapM (fun n =>
          match attrGet n "value" with
          | none => Except.error PyErr.typeError
          | some v => pyIntParse v) = .ok volts →
        grabSpectraVoltage doc nodes
          = .ok ((List.flatten (List.replicate nodes.length volts)).map some)
        ∧ ((List.flatten (List.replicate nodes.length volts)).map some).length
          = nodes.length * volts.length) := by
  constructor
  · constructor
    · rw [grabSpectraPremz, flatMap_const_eq]
      exact mapM_flatten_replicate _ _ _ hpre nodes.length
    · exact flatten_replicate_length nodes.length premzs
  · intro v0 n0 vrest nrest hv0 hn hv
    subst hn
    have hshape : (n0 :: nrest).flatMap (fun _ => voltNodesDoc doc)
        = List.flatten (List.replicate (n0 :: nrest).length (voltNodesDoc doc)) :=
      flatMap_const_eq _ _
    have hcons : List.flatten (List.replicate (n0 :: nrest).length (voltNodesDoc doc))
        = v0 :: (vrest ++ List.flatten (List.replicate nrest.length (v0 :: vrest))) := by
      rw [hv0]
      simp [List.replicate_succ]
    constructor
    · rw [grabSpectraVoltage]
      split
      · rename_i heq
        rw [hshape, hcons] at heq
        cases heq
      · rw [hshape, mapM_flatten_replicate _ _ _ hv (n0 :: nrest).length]
        rw [bind_ok_eq]
    · rw [List.length_map]
      exact flatten_replicate_length (n0 :: nrest).length volts

/-- Witness for C10: two MS2 spectra and two document-wide precursor matches
give lists of length 4 = 2 * 2 (not one value per spectrum). -/
theorem c10_witness :
    grabSpectraPremz c10doc (ms2Nodes c10doc) = .ok [150, 250, 150, 250]
    ∧ grabSpectraVoltage c10doc (ms2Nodes c10doc)
      = .ok [some 35, some 40, some 35, some 40] := by
  have h := c10_absolute_queries c10doc (ms2Nodes c10doc) [150, 250] [35, 40] (by decide)
  constructor
  · rw [h.1.1]
    decide
  · rw [(h.2 _ _ _ _ rfl rfl (by decide)).1]
    decide

end Pylgrams
